import Mathlib

/-!
Verification development for the commonapp deadline-ingestion pipeline.

The definitions below are a shallow embedding of the TypeScript sources:
  * `src/crawler/src/crawler.ts`   (date parser, HTML crawl, batch worker pool)
  * `src/crawler/src/pdf-import.ts` (PDF grid parsing, fuzzy matcher, PDF reconcile)
  * `src/crawler/src/index.ts`      (startup, stale-run cleanup)
  * `src/backend/src/routes/crawler.ts` (run trigger route)

The persistence layer (PostgreSQL) is modelled as in-memory lists of records;
the UNIQUE (college_id, round_type, cycle) constraint of `college_rounds`
appears as a lookup hypothesis where a theorem needs it.  Timestamps are
natural numbers (or integers, for `crawl_logs`, measured in minutes).
-/

set_option maxRecDepth 4000

namespace Commonapp

/-- The closed `round_type` enumeration of the database schema and of the
`RoundType` union type of `crawler.ts`. -/
inductive RoundType where
  | ED | ED2 | EA | REA | RD | ROLLING
deriving DecidableEq, Repr

/-- The `data_source` enumeration (`'CRAWLER' | 'ADMIN'`). -/
inductive Source where
  | CRAWLER | ADMIN
deriving DecidableEq, Repr

/-- One row of the `college_rounds` table, restricted to the columns the
ingestion pipeline reads or writes. -/
structure RoundRecord where
  id : Nat
  college_id : Nat
  round_type : RoundType
  cycle : String
  deadline_date : Option String
  decision_date : Option String
  source : Source
  admin_confirmed : Bool
  last_crawled_at : Option Nat
deriving DecidableEq, Repr

/-- `WHERE college_id = $1 AND round_type = $2 AND cycle = $3`. -/
def keyMatches (r : RoundRecord) (cid : Nat) (rt : RoundType) (cy : String) : Bool :=
  r.college_id = cid && r.round_type = rt && r.cycle = cy

/-- The existence check both reconcile paths start with
(`SELECT id, deadline_date, admin_confirmed FROM college_rounds WHERE ...`). -/
def findByKey (st : List RoundRecord) (cid : Nat) (rt : RoundType) (cy : String) :
    Option RoundRecord :=
  st.find? (fun r => keyMatches r cid rt cy)

/-- Number of stored records with the given identity key. -/
def countKey (st : List RoundRecord) (cid : Nat) (rt : RoundType) (cy : String) : Nat :=
  (st.filter (fun r => keyMatches r cid rt cy)).length

/-- `UPDATE college_rounds SET ... WHERE id = $n`. -/
def updateById (st : List RoundRecord) (i : Nat) (f : RoundRecord → RoundRecord) :
    List RoundRecord :=
  st.map (fun r => if r.id = i then f r else r)

/-- The effect a reconcile call has on the store: a fresh INSERT, an UPDATE
that writes the deadline date, an UPDATE that only refreshes
`last_crawled_at`, or a skip because of the admin-confirmed lock. -/
inductive ReconcileEffect where
  | inserted | updatedDeadline | touched | skippedAdmin
deriving DecidableEq, Repr

/-- The per-round reconcile step of `processCollege` in `crawler.ts`
(HTML-crawl path).  `newDate` is the parsed deadline, `now` the value of
`NOW()`, `newId` the id the INSERT would allocate.  Mirrors the source:
update the deadline only if the record is not admin-confirmed AND the date
changed; if admin-confirmed, do nothing at all; otherwise refresh
`last_crawled_at` only; insert when the key is absent. -/
def reconcileHtml (st : List RoundRecord) (cid : Nat) (rt : RoundType) (cy : String)
    (newDate : String) (now newId : Nat) : List RoundRecord × ReconcileEffect :=
  match findByKey st cid rt cy with
  | some existing =>
    if existing.admin_confirmed = false ∧ existing.deadline_date ≠ some newDate then
      (updateById st existing.id (fun r =>
        { r with deadline_date := some newDate, source := Source.CRAWLER,
                 admin_confirmed := false, last_crawled_at := some now }),
       ReconcileEffect.updatedDeadline)
    else if existing.admin_confirmed then
      (st, ReconcileEffect.skippedAdmin)
    else
      (updateById st existing.id (fun r => { r with last_crawled_at := some now }),
       ReconcileEffect.touched)
  | none =>
    (st ++ [{ id := newId, college_id := cid, round_type := rt, cycle := cy,
              deadline_date := some newDate, decision_date := none,
              source := Source.CRAWLER, admin_confirmed := false,
              last_crawled_at := some now }],
     ReconcileEffect.inserted)

/-- The per-deadline reconcile step of `importFromPdf` in `pdf-import.ts`
(PDF-import path).  Mirrors the source: whenever the record exists and is
not admin-confirmed it rewrites `deadline_date`, `source` and
`last_crawled_at` unconditionally (there is no date-changed test on this
path); an admin-confirmed record is skipped; an absent key is inserted. -/
def reconcilePdf (st : List RoundRecord) (cid : Nat) (rt : RoundType) (cy : String)
    (newDate : String) (now newId : Nat) : List RoundRecord × ReconcileEffect :=
  match findByKey st cid rt cy with
  | some existing =>
    if existing.admin_confirmed = false then
      (updateById st existing.id (fun r =>
        { r with deadline_date := some newDate, source := Source.CRAWLER,
                 last_crawled_at := some now }),
       ReconcileEffect.updatedDeadline)
    else
      (st, ReconcileEffect.skippedAdmin)
  | none =>
    (st ++ [{ id := newId, college_id := cid, round_type := rt, cycle := cy,
              deadline_date := some newDate, decision_date := none,
              source := Source.CRAWLER, admin_confirmed := false,
              last_crawled_at := some now }],
     ReconcileEffect.inserted)

/-- `SELECT COUNT(*) FROM college_rounds` as seen by `shouldImportPdf`:
either the row count or a query error. -/
def shouldImportPdf (countResult : Except String Nat) : Bool :=
  match countResult with
  | Except.ok totalDeadlines => if totalDeadlines < 50 then true else false
  | Except.error _ => false

/-- One row of the `crawl_logs` table (a `CrawlRun`).  `details` is the
jsonb column, modelled as an association list of string fields; times are
minutes. -/
structure CrawlLogRec where
  id : Nat
  run_started_at : Int
  run_finished_at : Option Int
  colleges_attempted : Nat
  colleges_successful : Nat
  colleges_failed : Nat
  details : List (String × String)
deriving DecidableEq, Repr

/-- The state the backend route module `routes/crawler.ts` closes over:
the module-level `isRunning` flag and the `crawl_logs` table. -/
structure BackendState where
  isRunning : Bool
  crawlLogs : List CrawlLogRec
deriving DecidableEq, Repr

/-- Responses of `POST /api/crawler/run`. -/
inductive RunResponse where
  | ok (row : CrawlLogRec)
  | alreadyRunning
deriving DecidableEq, Repr

/-- The `router.post('/run')` handler of `routes/crawler.ts`: reject with
HTTP 400 while `isRunning` is set, otherwise insert a fresh `crawl_logs`
row with zeroed counters and reset the flag. -/
def postRun (st : BackendState) (now : Int) (newId : Nat) : BackendState × RunResponse :=
  if st.isRunning then
    (st, RunResponse.alreadyRunning)
  else
    let row : CrawlLogRec :=
      { id := newId, run_started_at := now, run_finished_at := none,
        colleges_attempted := 0, colleges_successful := 0, colleges_failed := 0,
        details := [] }
    ({ st with isRunning := false, crawlLogs := st.crawlLogs ++ [row] },
     RunResponse.ok row)

/-! ### DateParser (`parseDate` in `crawler.ts`)

`parseDate` runs four regex patterns over the input, in source order, and
builds a JS `Date` from the first regex match of each pattern, falling
through to the next pattern while the built date is invalid.  The scanners
below reproduce the leftmost-match, greedy-with-backtracking semantics of
the source regexes on the character list of the input.  JS `Date`-string
parsing is modelled on the forms these patterns can produce: a month word
(full English month name, case-insensitive — the only alphabetic form the
crawler's DATE_PATTERNS emit — or a bare numeric month), a day and a year,
valid exactly when the day exists in that calendar month; the process runs
with a UTC clock, so `toISOString().split(sep)[0]` is the calendar date
itself, normalised to `YYYY-MM-DD`. -/

/-- JS `toLowerCase` on the ASCII range. -/
def lowerCh (c : Char) : Char :=
  if 'A' ≤ c ∧ c ≤ 'Z' then Char.ofNat (c.toNat + 32) else c

/-- Lower-case every character of a string. -/
def lowerStr (s : String) : String := String.mk (s.data.map lowerCh)

/-- The regex class `\d`. -/
def isDigitCh (c : Char) : Bool := '0' ≤ c && c ≤ '9'

/-- The regex class `\w` = `[A-Za-z0-9_]`. -/
def isWordCh (c : Char) : Bool := c.isAlpha || isDigitCh c || c = '_'

/-- The regex class `\s` (the whitespace forms that occur in page text). -/
def isSpaceCh (c : Char) : Bool := c = ' ' || c = '\t' || c = '\n' || c = '\r'

/-- Numeric value of a digit character. -/
def digitVal (c : Char) : Nat := c.toNat - '0'.toNat

/-- Numeric value of a digit run. -/
def digitsVal (l : List Char) : Nat := l.foldl (fun a c => 10 * a + digitVal c) 0

/-- Match `(\w+)` at the head: the maximal non-empty word run. -/
def takeWord1 (l : List Char) : Option (List Char × List Char) :=
  match l with
  | [] => none
  | c :: _ => if isWordCh c then some (l.takeWhile isWordCh, l.dropWhile isWordCh) else none

/-- Match `\s+` at the head. -/
def dropSpaces1 (l : List Char) : Option (List Char) :=
  match l with
  | [] => none
  | c :: r => if isSpaceCh c then some (r.dropWhile isSpaceCh) else none

/-- Match exactly `n` digits at the head, returning their value. -/
def takeExactDigitsAux (acc : Nat) : Nat → List Char → Option (Nat × List Char)
  | 0, l => some (acc, l)
  | _ + 1, [] => none
  | n + 1, c :: r =>
    if isDigitCh c then takeExactDigitsAux (10 * acc + digitVal c) n r else none

/-- Match `\d{n}` (exact count) at the head. -/
def takeExactDigits (n : Nat) (l : List Char) : Option (Nat × List Char) :=
  takeExactDigitsAux 0 n l

/-- Match `\d{1,2}` at the head: greedily two digits, backtracking to one
when the continuation `k` fails — exactly the regex engine's behaviour. -/
def take1or2Digits (l : List Char) (k : Nat → List Char → Option β) : Option β :=
  match l with
  | [] => none
  | [c1] => if isDigitCh c1 then k (digitVal c1) [] else none
  | c1 :: c2 :: r =>
    if isDigitCh c1 then
      if isDigitCh c2 then
        match k (10 * digitVal c1 + digitVal c2) r with
        | some x => some x
        | none => k (digitVal c1) (c2 :: r)
      else k (digitVal c1) (c2 :: r)
    else none

/-- Match `(\w+)\s+(\d{1,2}),?\s+(\d{4})` anchored at the head. -/
def monthDayYearAt (l : List Char) : Option (String × Nat × Nat) :=
  match takeWord1 l with
  | none => none
  | some (w, r1) =>
    match dropSpaces1 r1 with
    | none => none
    | some r2 =>
      take1or2Digits r2 (fun day r3 =>
        let tryRest : List Char → Option (String × Nat × Nat) := fun rr =>
          match dropSpaces1 rr with
          | none => none
          | some r5 =>
            match takeExactDigits 4 r5 with
            | some (yr, _) => some (String.mk w, day, yr)
            | none => none
        match r3 with
        | ',' :: r4 =>
          (match tryRest r4 with
           | some x => some x
           | none => tryRest r3)
        | _ => tryRest r3)

/-- Leftmost match of `(\w+)\s+(\d{1,2}),?\s+(\d{4})`. -/
def findMonthDayYear : List Char → Option (String × Nat × Nat)
  | [] => none
  | c :: r =>
    match monthDayYearAt (c :: r) with
    | some x => some x
    | none => findMonthDayYear r

/-- Match `(\w+)\s+(\d{1,2})` anchored at the head. -/
def monthDayAt (l : List Char) : Option (String × Nat) :=
  match takeWord1 l with
  | none => none
  | some (w, r1) =>
    match dropSpaces1 r1 with
    | none => none
    | some r2 => take1or2Digits r2 (fun day _ => some (String.mk w, day))

/-- Leftmost match of `(\w+)\s+(\d{1,2})`. -/
def findMonthDay : List Char → Option (String × Nat)
  | [] => none
  | c :: r =>
    match monthDayAt (c :: r) with
    | some x => some x
    | none => findMonthDay r

/-- Match `(\d{1,2})/(\d{1,2})/(\d{4})` anchored at the head. -/
def slashDateAt (l : List Char) : Option (Nat × Nat × Nat) :=
  take1or2Digits l (fun mo r1 =>
    match r1 with
    | '/' :: r2 =>
      take1or2Digits r2 (fun dy r3 =>
        match r3 with
        | '/' :: r4 =>
          match takeExactDigits 4 r4 with
          | some (yr, _) => some (mo, dy, yr)
          | none => none
        | _ => none)
    | _ => none)

/-- Leftmost match of `(\d{1,2})/(\d{1,2})/(\d{4})`. -/
def findSlashDate : List Char → Option (Nat × Nat × Nat)
  | [] => none
  | c :: r =>
    match slashDateAt (c :: r) with
    | some x => some x
    | none => findSlashDate r

/-- Match `(\d{4})-(\d{2})-(\d{2})` anchored at the head. -/
def isoDateAt (l : List Char) : Option (Nat × Nat × Nat) :=
  match takeExactDigits 4 l with
  | some (yr, r1) =>
    match r1 with
    | '-' :: r2 =>
      match takeExactDigits 2 r2 with
      | some (mo, r3) =>
        match r3 with
        | '-' :: r4 =>
          match takeExactDigits 2 r4 with
          | some (dy, _) => some (yr, mo, dy)
          | none => none
        | _ => none
      | none => none
    | _ => none
  | none => none

/-- Leftmost match of `(\d{4})-(\d{2})-(\d{2})`. -/
def findIsoDate : List Char → Option (Nat × Nat × Nat)
  | [] => none
  | c :: r =>
    match isoDateAt (c :: r) with
    | some x => some x
    | none => findIsoDate r

/-- English month names with their zero-based JS month index. -/
def monthNames : List (String × Nat) :=
  [("january", 0), ("february", 1), ("march", 2), ("april", 3), ("may", 4),
   ("june", 5), ("july", 6), ("august", 7), ("september", 8), ("october", 9),
   ("november", 10), ("december", 11)]

/-- Zero-based month index JS date parsing assigns to the month word
(case-insensitive month names; bare numeric months 1..12). -/
def monthIndexOf (w : String) : Option Nat :=
  let lw := lowerStr w
  match monthNames.find? (fun p => p.1 = lw) with
  | some p => some p.2
  | none =>
    if w.data ≠ [] ∧ w.data.all isDigitCh then
      let n := digitsVal w.data
      if 1 ≤ n ∧ n ≤ 12 then some (n - 1) else none
    else none

/-- Gregorian leap-year rule. -/
def isLeapYear (y : Nat) : Bool := (y % 4 = 0 && y % 100 != 0) || y % 400 = 0

/-- Day count of month `m` (one-based) in year `y`. -/
def daysInMonth (y m : Nat) : Nat :=
  if m = 2 then (if isLeapYear y then 29 else 28)
  else if m = 4 ∨ m = 6 ∨ m = 9 ∨ m = 11 then 30
  else 31

/-- A calendar date (one-based month). -/
structure Ymd where
  year : Nat
  month : Nat
  day : Nat
deriving DecidableEq, Repr

/-- The validity test JS applies when building a `Date` from components:
invalid month or out-of-range day gives an Invalid Date (`isNaN`). -/
def mkValidDate (y m d : Nat) : Option Ymd :=
  if 1 ≤ m ∧ m ≤ 12 ∧ 1 ≤ d ∧ d ≤ daysInMonth y m then some ⟨y, m, d⟩ else none

/-- Zero-pad to two digits (`padStart(2, ch0)`). -/
def pad2 (n : Nat) : String := if n < 10 then "0" ++ toString n else toString n

/-- Zero-pad to four digits (the year field of `toISOString`). -/
def pad4 (n : Nat) : String :=
  if n < 10 then "000" ++ toString n
  else if n < 100 then "00" ++ toString n
  else if n < 1000 then "0" ++ toString n
  else toString n

/-- `date.toISOString().split(sepT)[0]`: the ISO `YYYY-MM-DD` form. -/
def isoOfYmd (x : Ymd) : String := pad4 x.year ++ "-" ++ pad2 x.month ++ "-" ++ pad2 x.day

/-- Pattern 1 of `parseDate`: full month-name date with explicit year. -/
def fullDatePattern (s : String) : Option Ymd :=
  match findMonthDayYear s.data with
  | some (w, day, yr) =>
    match monthIndexOf w with
    | some mi => mkValidDate yr (mi + 1) day
    | none => none
  | none => none

/-- Pattern 2 of `parseDate`: month-name date without year; the year is
`cycleStartYear` when the zero-based month index is at least 8
(September..December), else `cycleStartYear + 1`. -/
def partialDatePattern (s : String) (cycleStartYear : Nat) : Option Ymd :=
  match findMonthDay s.data with
  | some (w, day) =>
    match monthIndexOf w with
    | some mi =>
      let year := if mi ≥ 8 then cycleStartYear else cycleStartYear + 1
      mkValidDate year (mi + 1) day
    | none => none
  | none => none

/-- Pattern 3 of `parseDate`: `MM/DD/YYYY`. -/
def slashDatePattern (s : String) : Option Ymd :=
  match findSlashDate s.data with
  | some (mo, dy, yr) => mkValidDate yr mo dy
  | none => none

/-- Pattern 4 of `parseDate`: `YYYY-MM-DD`. -/
def isoDatePattern (s : String) : Option Ymd :=
  match findIsoDate s.data with
  | some (yr, mo, dy) => mkValidDate yr mo dy
  | none => none

/-- `parseDate(dateStr, cycleStartYear)` from `crawler.ts`: try the four
patterns in order, return the first valid date as ISO text, else null.
The function is total — the `try/catch` of the source can never fire in
the model, matching "never throws for unparseable input". -/
def parseDate (dateStr : String) (cycleStartYear : Nat) : Option String :=
  match fullDatePattern dateStr with
  | some d => some (isoOfYmd d)
  | none =>
    match partialDatePattern dateStr cycleStartYear with
    | some d => some (isoOfYmd d)
    | none =>
      match slashDatePattern dateStr with
      | some d => some (isoOfYmd d)
      | none =>
        match isoDatePattern dateStr with
        | some d => some (isoOfYmd d)
        | none => none

/-! ### PdfGridParser round-type inference (`parseWithRegex` in `pdf-import.ts`)

For a college-entry terminator line, the source extracts every
`MM/DD/YYYY` occurrence from the date payload, keeps those with year in
[2024, 2027], and infers a round type for the j-th kept date from its
month/day and position.  `emitLine` models that per-line step; the raw
regex matches arrive as (month, day, year) triples and `hasRolling` is
the result of the `/Rolling/i` test on the line. -/

/-- The date-to-round classifier of `parseWithRegex` (the `if` ladder over
`month`/`day` with `j === 0` as `isFirst`). -/
def inferRoundType (month day : Nat) (isFirst hasRolling : Bool) : RoundType :=
  if month = 10 ∨ (month = 11 ∧ day ≤ 15) then
    (if isFirst then RoundType.ED else RoundType.EA)
  else if month = 11 ∧ day > 15 then
    (if isFirst then RoundType.ED else RoundType.EA)
  else if month = 12 then
    (if isFirst then RoundType.EA else RoundType.ED2)
  else if month = 1 ∧ day ≤ 15 then
    (if isFirst then RoundType.ED2 else RoundType.RD)
  else if month = 1 ∨ month = 2 then
    RoundType.RD
  else if 3 ≤ month ∧ month ≤ 8 then
    (if hasRolling then RoundType.ROLLING else RoundType.RD)
  else
    RoundType.ROLLING

/-- `${year}-${month...padStart(2)}-${day...padStart(2)}` of the source. -/
def fmtMDY (year month day : Nat) : String :=
  toString year ++ "-" ++ pad2 month ++ "-" ++ pad2 day

/-- The candidates one terminator line contributes: the year-filtered dates
are classified positionally; a line with no (valid-year) date but a
Rolling token yields one ROLLING candidate with the placeholder date
`cycleYear+1 -08-01`. -/
def emitLine (dateMatches : List (Nat × Nat × Nat)) (hasRolling : Bool)
    (cycleYear : Nat) : List (RoundType × String) :=
  let allDates := dateMatches.filter (fun t => 2024 ≤ t.2.2 && t.2.2 ≤ 2027)
  let fromDates := allDates.enum.map (fun jt =>
    (inferRoundType jt.2.1 jt.2.2.1 (jt.1 = 0) hasRolling,
     fmtMDY jt.2.2.2 jt.2.1 jt.2.2.1))
  if allDates.length = 0 ∧ hasRolling then
    fromDates ++ [(RoundType.ROLLING, toString (cycleYear + 1) ++ "-08-01")]
  else
    fromDates

/-- The classifier exactly as the claim words it: October/early-November
first → ED (later → EA); December first → EA (later → ED2); early January
first → ED2 (later → RD); late January / February → RD; March–August →
ROLLING when the line has a Rolling token, else RD; any other month →
ROLLING.  Late November falls into no listed window, so it lands in the
final catch-all. -/
def claimedRoundType (month day : Nat) (isFirst hasRolling : Bool) : RoundType :=
  if month = 10 ∨ (month = 11 ∧ day ≤ 15) then
    (if isFirst then RoundType.ED else RoundType.EA)
  else if month = 12 then
    (if isFirst then RoundType.EA else RoundType.ED2)
  else if month = 1 ∧ day ≤ 15 then
    (if isFirst then RoundType.ED2 else RoundType.RD)
  else if month = 1 ∨ month = 2 then
    RoundType.RD
  else if 3 ≤ month ∧ month ≤ 8 then
    (if hasRolling then RoundType.ROLLING else RoundType.RD)
  else
    RoundType.ROLLING

/-- The classifier as the amended claim words it: the whole of November is
classified with October (first → ED, later → EA); all other windows as in
the original claim. -/
def claimedAmendedRoundType (month day : Nat) (isFirst hasRolling : Bool) : RoundType :=
  if month = 10 ∨ month = 11 then
    (if isFirst then RoundType.ED else RoundType.EA)
  else if month = 12 then
    (if isFirst then RoundType.EA else RoundType.ED2)
  else if month = 1 ∧ day ≤ 15 then
    (if isFirst then RoundType.ED2 else RoundType.RD)
  else if month = 1 ∨ month = 2 then
    RoundType.RD
  else if 3 ≤ month ∧ month ≤ 8 then
    (if hasRolling then RoundType.ROLLING else RoundType.RD)
  else
    RoundType.ROLLING

/-! ### CollegeNameMatcher (`matchColleges` in `pdf-import.ts`) -/

/-- One row of the `colleges` reference table as read by the matcher
(`SELECT id, name, short_name FROM colleges`); `short_name` is nullable. -/
structure DbCollege where
  id : Nat
  name : String
  short_name : Option String
deriving DecidableEq, Repr

/-- `pat` starts the list `l` (JS `startsWith` on char lists). -/
def startsWithL : List Char → List Char → Bool
  | [], _ => true
  | _ :: _, [] => false
  | a :: as, b :: bs => a = b && startsWithL as bs

/-- `hay.includes(needle)` of JS: substring containment. -/
def isSubstrL (pat : List Char) : List Char → Bool
  | [] => pat.isEmpty
  | c :: r => startsWithL pat (c :: r) || isSubstrL pat r

/-- `hay.includes(needle)` on strings. -/
def isSubstr (needle hay : String) : Bool := isSubstrL needle.data hay.data

/-- JS `trim()`: strip whitespace from both ends. -/
def trimStr (s : String) : String :=
  String.mk (((s.data.dropWhile isSpaceCh).reverse.dropWhile isSpaceCh).reverse)

/-- JS `split(/\s+/)` on already-trimmed text: the whitespace-separated
words. -/
def splitWsGo (cur : List Char) : List Char → List String
  | [] => if cur.isEmpty then [] else [String.mk cur.reverse]
  | c :: r =>
    if isSpaceCh c then
      (if cur.isEmpty then splitWsGo [] r else String.mk cur.reverse :: splitWsGo [] r)
    else splitWsGo (c :: cur) r

/-- Split a string into whitespace-separated words. -/
def splitWs (s : String) : List String := splitWsGo [] s.data

/-- The stopword list of the token-overlap strategy. -/
def matcherStopwords : List String := ["university", "college", "the", "and", "of"]

/-- `split(/\s+/).filter(w.length > 3 && not a stopword)`: the significant
tokens of a normalized candidate name. -/
def significantWords (q : String) : List String :=
  (splitWs q).filter (fun w => w.length > 3 && !(matcherStopwords.contains w))

/-- Strategy 1: case-insensitive exact match against `name` or a present,
non-empty `short_name` (an empty short name is falsy in the source). -/
def exactNameMatch (q : String) (c : DbCollege) : Bool :=
  lowerStr c.name = q ||
    (match c.short_name with
     | some sn => sn ≠ "" && lowerStr sn = q
     | none => false)

/-- Strategy 2: substring containment in either direction against `name`. -/
def containsNameMatch (q : String) (c : DbCollege) : Bool :=
  let dbName := lowerStr c.name
  isSubstr q dbName || isSubstr dbName q

/-- Strategy 3: token overlap — count the significant candidate tokens that
substring-overlap some word of the reference name; succeed on at least two
overlaps, or exactly one when the candidate has exactly one significant
token. -/
def wordOverlapMatch (q : String) (c : DbCollege) : Bool :=
  let parsedWords := significantWords q
  let dbWords := splitWs (lowerStr c.name)
  let matchCount :=
    (parsedWords.filter (fun w => dbWords.any (fun dw => isSubstr w dw || isSubstr dw w))).length
  matchCount ≥ 2 || (parsedWords.length = 1 && matchCount = 1)

/-- The per-name loop body of `matchColleges`: normalize, then try the
three strategies in order over the reference list; the first hit wins and
a total miss yields no entry (never an error). -/
def matchOne (rawName : String) (dbColleges : List DbCollege) : Option Nat :=
  let q := trimStr (lowerStr rawName)
  match dbColleges.find? (exactNameMatch q) with
  | some c => some c.id
  | none =>
    match dbColleges.find? (containsNameMatch q) with
    | some c => some c.id
    | none =>
      match dbColleges.find? (wordOverlapMatch q) with
      | some c => some c.id
      | none => none

/-- `[...new Set(names)]`: first occurrences, in order. -/
def uniqueFirst (seen : List String) : List String → List String
  | [] => []
  | x :: xs =>
    if seen.contains x then uniqueFirst seen xs
    else x :: uniqueFirst (x :: seen) xs

/-- `matchColleges`: the mapping rawName → collegeId over the unique raw
names; unmatched names are simply absent. -/
def matchColleges (names : List String) (dbColleges : List DbCollege) :
    List (String × Nat) :=
  (uniqueFirst [] names).filterMap (fun n => (matchOne n dbColleges).map (fun i => (n, i)))

/-! ### HtmlDeadlineExtractor fetch (`fetchPage` in `crawler.ts`)

The network is modelled as a function from URL to response.  The source
follows a redirect whenever the status is 3xx and a Location header is
present, bumping `redirectCount`; it rejects when `redirectCount > 5`,
rejects any other response whose status is not exactly 200, and resolves
with the body on status 200.  (Socket errors and the 30s timeout are
transport failures outside this model.) -/

/-- An HTTP response as `fetchPage` inspects it. -/
structure HttpResponse where
  status : Nat
  location : Option String
  body : String

/-- The network: what each URL answers. -/
def FetchEnv : Type := String → HttpResponse

/-- The rejection reasons of `fetchPage`. -/
inductive FetchError where
  | tooManyRedirects
  | httpStatus (code : Nat)
deriving DecidableEq, Repr

/-- `fetchPage(url, redirectCount)` from `crawler.ts`. -/
def fetchPage (env : FetchEnv) (url : String) (redirectCount : Nat) :
    Except FetchError String :=
  if _h : redirectCount > 5 then
    Except.error FetchError.tooManyRedirects
  else
    let resp := env url
    if 300 ≤ resp.status ∧ resp.status < 400 then
      match resp.location with
      | some loc => fetchPage env loc (redirectCount + 1)
      | none =>
        if resp.status ≠ 200 then Except.error (FetchError.httpStatus resp.status)
        else Except.ok resp.body
    else
      if resp.status ≠ 200 then Except.error (FetchError.httpStatus resp.status)
      else Except.ok resp.body
termination_by 6 - redirectCount
decreasing_by omega

/-- The success condition of the amended fetch contract: from `url` with
`redirectCount` hops already taken, following 3xx-with-Location redirects
within the 5-hop budget reaches a response with status exactly 200 whose
body is `b`. -/
inductive ReachesOk (env : FetchEnv) : String → Nat → String → Prop where
  | here : ∀ url rc, rc ≤ 5 →
      ¬(300 ≤ (env url).status ∧ (env url).status < 400 ∧ (env url).location.isSome) →
      (env url).status = 200 →
      ReachesOk env url rc (env url).body
  | redirect : ∀ url rc loc b, rc ≤ 5 →
      300 ≤ (env url).status → (env url).status < 400 →
      (env url).location = some loc →
      ReachesOk env loc (rc + 1) b →
      ReachesOk env url rc b

/-! ### CrawlOrchestrator batch accounting (`runCrawler` in `crawler.ts`)

`runCrawler` slices the college list into batches of `CONCURRENCY`,
processes a batch with `Promise.all`, folds the per-college results into
the `completed`/`successful`/`failed` counters and persists them to the
crawl log after every batch.  `processCollege` catches every error and
returns `success: false` instead of throwing, so each college's outcome is
a total boolean function here and no failure can abort a batch or the
run. -/

/-- The worker-pool size (`CONCURRENCY = 10`). -/
def CONCURRENCY : Nat := 10

/-- The aggregate counters of a `CrawlRun`. -/
structure Counters where
  completed : Nat
  successful : Nat
  failed : Nat
deriving DecidableEq, Repr

/-- Folding one college's result into the counters (the `for (const result
of results)` body). -/
def stepCollege (outcome : α → Bool) (c : Counters) (x : α) : Counters :=
  { completed := c.completed + 1,
    successful := c.successful + (if outcome x then 1 else 0),
    failed := c.failed + (if outcome x then 0 else 1) }

/-- Folding a whole batch's results into the counters. -/
def stepBatch (outcome : α → Bool) (c : Counters) (b : List α) : Counters :=
  b.foldl (stepCollege outcome) c

/-- The batch loop of `runCrawler`, structurally recursive on a fuel bound
for the number of loop iterations (each iteration removes at least one
college, so `l.length` fuel is always enough). -/
def crawlCheckpointsAux (outcome : α → Bool) (conc : Nat) :
    Nat → Counters → List α → List Counters
  | _, _, [] => []
  | 0, _, _ :: _ => []
  | fuel + 1, cnt, x :: xs =>
    let batch := x :: xs.take (conc - 1)
    let cnt2 := stepBatch outcome cnt batch
    cnt2 :: crawlCheckpointsAux outcome conc fuel cnt2 (xs.drop (conc - 1))

/-- The batch loop of `runCrawler`: slice off `conc` colleges (for `conc ≥
1`, `slice(i, i+conc)` is head plus `conc - 1` more), fold the batch's
results into the counters and record them (the `UPDATE crawl_logs`
checkpoint persisted after each batch).  Returns the checkpoint list in
order. -/
def crawlCheckpoints (outcome : α → Bool) (conc : Nat) (cnt : Counters)
    (l : List α) : List Counters :=
  crawlCheckpointsAux outcome conc l.length cnt l

/-! ### Stale-run cleanup (`cleanupStaleCrawlLogs` in `index.ts`) -/

/-- The error annotation the cleanup writes into `details`. -/
def staleErrorMsg : String := "Stale crawl - marked as failed on startup"

/-- jsonb `||` with a one-key object: set/overwrite the key. -/
def setDetail (ds : List (String × String)) (k v : String) : List (String × String) :=
  ds.filter (fun p => p.1 ≠ k) ++ [(k, v)]

/-- Read a field of the `details` object. -/
def lookupDetail (ds : List (String × String)) (k : String) : Option String :=
  (ds.find? (fun p => p.1 = k)).map (fun p => p.2)

/-- The stale test of the UPDATE's WHERE clause: no finish time and started
strictly more than 30 minutes before `now`. -/
def isStaleLog (now : Int) (r : CrawlLogRec) : Bool :=
  r.run_finished_at = none && r.run_started_at < now - 30

/-- The finalized form the cleanup UPDATE writes for a stale log:
`run_finished_at = NOW()` and the error annotation merged into
`details`. -/
def staleMark (now : Int) (r : CrawlLogRec) : CrawlLogRec :=
  { r with run_finished_at := some now,
           details := setDetail r.details "error" staleErrorMsg }

/-- `cleanupStaleCrawlLogs`: finalize every stale log, leave the rest. -/
def cleanupStaleCrawlLogs (now : Int) (logs : List CrawlLogRec) : List CrawlLogRec :=
  logs.map (fun r => if isStaleLog now r then staleMark now r else r)

/-- The crawler service's database state at startup, as far as `initialize`
touches it. -/
structure CrawlerWorld where
  crawlLogs : List CrawlLogRec
  rounds : List RoundRecord
deriving DecidableEq, Repr

/-- `initialize` in `index.ts`: the stale-log cleanup runs first; only then
does the startup import / crawl phase (`executeDataImport`,
`executeCrawl`, the cron registration — abstracted as `runPhase`) see and
mutate the database. -/
def initializeModel (runPhase : CrawlerWorld → CrawlerWorld) (now : Int)
    (w : CrawlerWorld) : CrawlerWorld :=
  runPhase { w with crawlLogs := cleanupStaleCrawlLogs now w.crawlLogs }

/-! ## Theorems -/

/-- C1: Admin lock invariant.  When the lookup for the candidate's
(college, round type, cycle) key returns a record with
`admin_confirmed = true` and stored `deadline_date = D1`, reconciling a
candidate carrying any `D2 ≠ D1` through either the HTML-crawl path or
the PDF-import path returns the store completely unchanged (so the stored
deadline stays `D1` and no deadline/decision date field is written) and
reports the admin skip. -/
theorem reconcile_admin_lock (st : List RoundRecord) (cid : Nat) (rt : RoundType)
    (cy d1 d2 : String) (now newId : Nat) (r : RoundRecord)
    (hfind : findByKey st cid rt cy = some r)
    (hconf : r.admin_confirmed = true)
    (_hdate : r.deadline_date = some d1)
    (_hne : d2 ≠ d1) :
    reconcileHtml st cid rt cy d2 now newId = (st, ReconcileEffect.skippedAdmin) ∧
    reconcilePdf st cid rt cy d2 now newId = (st, ReconcileEffect.skippedAdmin) := by
  unfold reconcileHtml reconcilePdf
  rw [hfind]
  simp [hconf]

/-- The admin-confirmed record of the C1 witness store. -/
def lockWitnessRecord : RoundRecord :=
  { id := 1, college_id := 7, round_type := RoundType.ED, cycle := "2025-2026",
    deadline_date := some "2025-11-01", decision_date := none,
    source := Source.ADMIN, admin_confirmed := true, last_crawled_at := none }

/-- Witness for C1: a concrete admin-confirmed ED record with deadline
2025-11-01 survives both reconcile paths of a 2025-11-15 candidate. -/
theorem reconcile_admin_lock_witness :
    reconcileHtml [lockWitnessRecord] 7 RoundType.ED "2025-2026" "2025-11-15" 99 2
      = ([lockWitnessRecord], ReconcileEffect.skippedAdmin) ∧
    reconcilePdf [lockWitnessRecord] 7 RoundType.ED "2025-2026" "2025-11-15" 99 2
      = ([lockWitnessRecord], ReconcileEffect.skippedAdmin) :=
  reconcile_admin_lock [lockWitnessRecord] 7 RoundType.ED "2025-2026"
    "2025-11-01" "2025-11-15" 99 2 lockWitnessRecord (by decide) rfl rfl (by decide)

/-- C2: Single-run exclusivity.  While the backend's `isRunning` flag is
set, `POST /run` answers HTTP 400 "Crawler is already running" and leaves
the state untouched: no second `crawl_logs` row is inserted and the
in-flight run's attempted/successful/failed counters are exactly as
before. -/
theorem postRun_exclusive (st : BackendState) (now : Int) (newId : Nat)
    (h : st.isRunning = true) :
    postRun st now newId = (st, RunResponse.alreadyRunning) := by
  simp [postRun, h]

/-- Witness for C2 at a concrete running state. -/
theorem postRun_exclusive_witness :
    postRun { isRunning := true, crawlLogs := [] } 0 1
      = ({ isRunning := true, crawlLogs := [] }, RunResponse.alreadyRunning) :=
  postRun_exclusive { isRunning := true, crawlLogs := [] } 0 1 rfl

/-- C3 counterexample: after a PDF-path reconcile created the record with
deadline 2026-01-05, reconciling the identical candidate again on the
PDF-import path still issues the deadline-writing UPDATE
(`updatedDeadline`), although the new date equals the stored date — so
"the deadline date is written only if the new date differs … on both the
HTML-crawl path and the PDF-import path" is false as stated. -/
theorem reconcilePdf_noop_counterexample :
    ((reconcilePdf [] 1 RoundType.RD "2025-2026" "2026-01-05" 10 1).1.map
        (fun r => r.deadline_date)) = [some "2026-01-05"] ∧
    (reconcilePdf (reconcilePdf [] 1 RoundType.RD "2025-2026" "2026-01-05" 10 1).1
        1 RoundType.RD "2025-2026" "2026-01-05" 20 1).2
      = ReconcileEffect.updatedDeadline := by decide

/-- C3 (amended): reconciling any candidate twice against an initially
empty store yields exactly one record for its key on both paths; on the
HTML-crawl path an existing not-admin-confirmed record has its deadline
written only when the new date differs (an identical date only refreshes
`last_crawled_at`); on the PDF-import path an existing
not-admin-confirmed record always gets the deadline-writing UPDATE, even
for an identical date. -/
theorem reconcile_idempotence_amended :
    (∀ (cid : Nat) (rt : RoundType) (cy d : String) (now1 now2 id1 id2 : Nat),
      countKey (reconcileHtml (reconcileHtml [] cid rt cy d now1 id1).1
          cid rt cy d now2 id2).1 cid rt cy = 1 ∧
      countKey (reconcilePdf (reconcilePdf [] cid rt cy d now1 id1).1
          cid rt cy d now2 id2).1 cid rt cy = 1) ∧
    (∀ (st : List RoundRecord) (cid : Nat) (rt : RoundType) (cy d : String)
        (now newId : Nat) (r : RoundRecord),
      findByKey st cid rt cy = some r → r.admin_confirmed = false →
      r.deadline_date = some d →
      reconcileHtml st cid rt cy d now newId =
        (updateById st r.id (fun x => { x with last_crawled_at := some now }),
         ReconcileEffect.touched)) ∧
    (∀ (st : List RoundRecord) (cid : Nat) (rt : RoundType) (cy d : String)
        (now newId : Nat) (r : RoundRecord),
      findByKey st cid rt cy = some r → r.admin_confirmed = false →
      r.deadline_date ≠ some d →
      (reconcileHtml st cid rt cy d now newId).2 = ReconcileEffect.updatedDeadline) ∧
    (∀ (st : List RoundRecord) (cid : Nat) (rt : RoundType) (cy d : String)
        (now newId : Nat) (r : RoundRecord),
      findByKey st cid rt cy = some r → r.admin_confirmed = false →
      (reconcilePdf st cid rt cy d now newId).2 = ReconcileEffect.updatedDeadline) := by
  refine ⟨?_, ?_, ?_, ?_⟩
  · intro cid rt cy d now1 now2 id1 id2
    have hk : keyMatches
        { id := id1, college_id := cid, round_type := rt, cycle := cy,
          deadline_date := some d, decision_date := none,
          source := Source.CRAWLER, admin_confirmed := false,
          last_crawled_at := some now1 } cid rt cy = true := by
      simp [keyMatches]
    constructor
    · simp [reconcileHtml, findByKey, countKey, updateById, keyMatches, List.find?]
    · simp [reconcilePdf, findByKey, countKey, updateById, keyMatches, List.find?]
  · intro st cid rt cy d now newId r hfind hconf hdate
    unfold reconcileHtml
    rw [hfind]
    simp [hconf, hdate]
  · intro st cid rt cy d now newId r hfind hconf hdate
    unfold reconcileHtml
    rw [hfind]
    simp [hconf, hdate]
  · intro st cid rt cy d now newId r hfind hconf
    unfold reconcilePdf
    rw [hfind]
    simp [hconf]

/-- The not-admin-confirmed record of the C3 witness store. -/
def noopWitnessRecord : RoundRecord :=
  { id := 1, college_id := 1, round_type := RoundType.RD, cycle := "2025-2026",
    deadline_date := some "2026-01-05", decision_date := none,
    source := Source.CRAWLER, admin_confirmed := false, last_crawled_at := some 10 }

/-- Witness for C3 (amended): an identical-date HTML reconcile of a
concrete crawler-created record only refreshes `last_crawled_at`. -/
theorem reconcile_idempotence_amended_witness :
    reconcileHtml [noopWitnessRecord] 1 RoundType.RD "2025-2026" "2026-01-05" 20 2
      = (updateById [noopWitnessRecord] noopWitnessRecord.id
          (fun x => { x with last_crawled_at := some 20 }),
         ReconcileEffect.touched) :=
  reconcile_idempotence_amended.2.1 [noopWitnessRecord] 1 RoundType.RD "2025-2026"
    "2026-01-05" 20 2 noopWitnessRecord (by decide) rfl rfl

/-- C10: `shouldImportPdf` answers true exactly when the `college_rounds`
count query succeeded with a total below 50; a count of 50 or more and a
failed query both answer false (the catch returns false, so the function
never throws). -/
theorem shouldImportPdf_contract (r : Except String Nat) :
    shouldImportPdf r = true ↔ ∃ n, r = Except.ok n ∧ n < 50 := by
  cases r with
  | ok n => by_cases h : n < 50 <;> simp [shouldImportPdf, h]
  | error e => simp [shouldImportPdf]

/-- Witness for C10 at a concrete count. -/
theorem shouldImportPdf_contract_witness : shouldImportPdf (Except.ok 3) = true :=
  (shouldImportPdf_contract (Except.ok 3)).mpr ⟨3, rfl, by decide⟩

/-- C4: the DateParser contract.  `parseDate` tries the four patterns in
source order — month-name day year; month-name day with the year inferred
as `cycleStartYear` for zero-based month index ≥ 8 and `cycleStartYear+1`
otherwise; MM/DD/YYYY; YYYY-MM-DD — and returns the first pattern whose
(leftmost) match is a valid calendar date, normalised to ISO YYYY-MM-DD;
it returns none when every pattern fails (being a total function, it
never throws).  The four quoted evaluations hold. -/
theorem parseDate_contract :
    (∀ (s : String) (cy : Nat), parseDate s cy =
      ((((fullDatePattern s).orElse (fun _ => partialDatePattern s cy)).orElse
          (fun _ => slashDatePattern s)).orElse
        (fun _ => isoDatePattern s)).map isoOfYmd) ∧
    parseDate "November 1, 2025" 2025 = some "2025-11-01" ∧
    parseDate "November 1" 2025 = some "2025-11-01" ∧
    parseDate "February 1" 2025 = some "2026-02-01" ∧
    parseDate "13/45/2025" 2025 = none := by
  refine ⟨?_, by decide, by decide, by decide, by decide⟩
  intro s cy
  unfold parseDate
  cases fullDatePattern s <;> cases partialDatePattern s cy <;>
    cases slashDatePattern s <;> cases isoDatePattern s <;> rfl

/-- Helper: the classifier of `parseWithRegex` can produce every round
type except REA. -/
theorem inferRoundType_ne_REA (month day : Nat) (isFirst hasRolling : Bool) :
    inferRoundType month day isFirst hasRolling ≠ RoundType.REA := by
  unfold inferRoundType
  split_ifs <;> simp

/-- C5 counterexample: the late-November date 11/20/2025, first on its
line.  The source classifies it ED (`month === 11 && day > 15` falls into
the ED/EA branch), while the claim's case table lists only
October/early-November, December, January, February and March–August, so
its "any other month → ROLLING" catch-all would make this date ROLLING. -/
theorem inferRoundType_lateNov_counterexample :
    emitLine [(11, 20, 2025)] false 2025 = [(RoundType.ED, "2025-11-20")] ∧
    inferRoundType 11 20 true false = RoundType.ED ∧
    claimedRoundType 11 20 true false = RoundType.ROLLING ∧
    RoundType.ED ≠ RoundType.ROLLING := by decide

/-- C5 (amended): the classifier treats all of November like the
October/early-November window (first date → ED, subsequent → EA) and
otherwise matches the claimed case table (December → EA then ED2; early
January → ED2 then RD; late January/February → RD; March–August → ROLLING
with a Rolling token, else RD; any other month → ROLLING); a line with no
valid-year date but a Rolling token yields exactly one ROLLING candidate
with the placeholder date; and no emitted candidate is ever REA. -/
theorem roundInference_amended :
    (∀ (month day : Nat) (isFirst hasRolling : Bool),
      inferRoundType month day isFirst hasRolling =
        claimedAmendedRoundType month day isFirst hasRolling) ∧
    (∀ (dm : List (Nat × Nat × Nat)) (hasRolling : Bool) (cy : Nat)
        (p : RoundType × String),
      p ∈ emitLine dm hasRolling cy → p.1 ≠ RoundType.REA) ∧
    (∀ (dm : List (Nat × Nat × Nat)) (cy : Nat),
      dm.filter (fun t => 2024 ≤ t.2.2 && t.2.2 ≤ 2027) = [] →
      emitLine dm true cy = [(RoundType.ROLLING, toString (cy + 1) ++ "-08-01")]) := by
  refine ⟨?_, ?_, ?_⟩
  · intro month day isFirst hasRolling
    unfold inferRoundType claimedAmendedRoundType
    split_ifs <;> first | rfl | omega
  · intro dm hasRolling cy p hp
    simp only [emitLine] at hp
    split at hp
    · rcases List.mem_append.mp hp with h | h
      · obtain ⟨jt, -, rfl⟩ := List.mem_map.mp h
        exact inferRoundType_ne_REA _ _ _ _
      · rw [List.mem_singleton] at h
        subst h
        simp
    · obtain ⟨jt, -, rfl⟩ := List.mem_map.mp hp
      exact inferRoundType_ne_REA _ _ _ _
  · intro dm cy h
    unfold emitLine
    simp [h]

/-- Witness for C5 (amended): a line whose only date has an out-of-range
year but which carries a Rolling token emits the single placeholder
ROLLING candidate. -/
theorem roundInference_amended_witness :
    emitLine [(5, 1, 2019)] true 2025
      = [(RoundType.ROLLING, toString (2025 + 1) ++ "-08-01")] :=
  roundInference_amended.2.2 [(5, 1, 2019)] 2025 (by decide)

/-- C9: the matcher contract.  For a raw name (normalised by lower-casing
and trimming), the three strategies are tried in order — exact name or
short-name equality, substring containment either way, token overlap with
the ≥2 / exactly-1 significant-token rule — and the first strategy that
finds a reference college wins; the quoted MIT example matches nothing;
and `matchColleges` silently skips unmatched names (every entry of its
result comes from a successful `matchOne`, so a miss merely leaves the
name absent instead of raising an error). -/
theorem matchColleges_contract :
    (∀ (n : String) (cs : List DbCollege) (c : DbCollege),
      cs.find? (exactNameMatch (trimStr (lowerStr n))) = some c →
      matchOne n cs = some c.id) ∧
    (∀ (n : String) (cs : List DbCollege) (c : DbCollege),
      cs.find? (exactNameMatch (trimStr (lowerStr n))) = none →
      cs.find? (containsNameMatch (trimStr (lowerStr n))) = some c →
      matchOne n cs = some c.id) ∧
    (∀ (n : String) (cs : List DbCollege),
      cs.find? (exactNameMatch (trimStr (lowerStr n))) = none →
      cs.find? (containsNameMatch (trimStr (lowerStr n))) = none →
      matchOne n cs = (cs.find? (wordOverlapMatch (trimStr (lowerStr n)))).map
        (fun c => c.id)) ∧
    matchOne "Massachusetts Institute of Technology" [⟨1, "MIT", some "MIT"⟩] = none ∧
    (∀ (names : List String) (cs : List DbCollege) (n : String) (i : Nat),
      (n, i) ∈ matchColleges names cs → matchOne n cs = some i) := by
  refine ⟨?_, ?_, ?_, by decide, ?_⟩
  · intro n cs c h
    simp only [matchOne, h]
  · intro n cs c h1 h2
    simp only [matchOne, h1, h2]
  · intro n cs h1 h2
    simp only [matchOne, h1, h2]
    cases cs.find? (wordOverlapMatch (trimStr (lowerStr n))) <;> rfl
  · intro names cs n i h
    unfold matchColleges at h
    simp only [List.mem_filterMap, Option.map_eq_some'] at h
    rcases h with ⟨a, _, j, hj, he⟩
    cases he
    exact hj

/-- Witness for C9: "MIT" exact-matches the single reference row. -/
theorem matchColleges_contract_witness :
    matchOne "MIT" [⟨1, "MIT", some "MIT"⟩] = some 1 :=
  matchColleges_contract.2.2.2.2 ["MIT"] [⟨1, "MIT", some "MIT"⟩] "MIT" 1 (by decide)

/-- Helper: a list splits into the part passing a filter and the part
failing it. -/
theorem length_filter_add_length_filter_not (p : α → Bool) :
    ∀ l : List α, (l.filter p).length + (l.filter (fun x => !p x)).length = l.length := by
  intro l
  induction l with
  | nil => simp
  | cons x xs ih =>
    by_cases h : p x <;> simp [List.filter_cons, h] <;> omega

/-- Helper: folding a batch adds its length to `completed`, its successes
to `successful` and its failures to `failed`. -/
theorem stepBatch_counts (outcome : α → Bool) :
    ∀ (b : List α) (c : Counters),
      (stepBatch outcome c b).completed = c.completed + b.length ∧
      (stepBatch outcome c b).successful = c.successful + (b.filter outcome).length ∧
      (stepBatch outcome c b).failed
        = c.failed + (b.filter (fun x => !outcome x)).length := by
  intro b
  induction b with
  | nil => intro c; simp [stepBatch]
  | cons x xs ih =>
    intro c
    have h := ih (stepCollege outcome c x)
    have hstep : stepBatch outcome c (x :: xs) = stepBatch outcome (stepCollege outcome c x) xs := rfl
    rw [hstep]
    cases hx : outcome x <;>
      simp [stepCollege, hx, List.filter_cons] at h ⊢ <;> omega

/-- Helper: the counter facts of the batch loop, by induction on the fuel.
With counters starting at `cnt`, the final checkpoint (or `cnt` itself for
an empty list) counts every college, every success and every failure, and
every checkpoint satisfies `successful + failed = completed` whenever
`cnt` does. -/
theorem crawlCheckpointsAux_spec (outcome : α → Bool) (conc : Nat) :
    ∀ (fuel : Nat) (l : List α), l.length ≤ fuel → ∀ cnt : Counters,
      ((crawlCheckpointsAux outcome conc fuel cnt l).getLastD cnt).completed
          = cnt.completed + l.length ∧
      ((crawlCheckpointsAux outcome conc fuel cnt l).getLastD cnt).successful
          = cnt.successful + (l.filter outcome).length ∧
      ((crawlCheckpointsAux outcome conc fuel cnt l).getLastD cnt).failed
          = cnt.failed + (l.filter (fun x => !outcome x)).length ∧
      (cnt.successful + cnt.failed = cnt.completed →
        ∀ cp ∈ crawlCheckpointsAux outcome conc fuel cnt l,
          cp.successful + cp.failed = cp.completed) := by
  intro fuel
  induction fuel with
  | zero =>
    intro l hl cnt
    have hnil : l = [] := List.length_eq_zero.mp (Nat.le_zero.mp hl)
    subst hnil
    simp [crawlCheckpointsAux]
  | succ fuel ih =>
    intro l hl cnt
    cases l with
    | nil => simp [crawlCheckpointsAux]
    | cons x xs =>
      have hrest : (xs.drop (conc - 1)).length ≤ fuel := by
        have := List.length_drop (conc - 1) xs
        simp only [List.length_cons] at hl
        omega
      have hsplit : (x :: xs.take (conc - 1)) ++ xs.drop (conc - 1) = x :: xs := by
        simp [List.take_append_drop]
      have hb := stepBatch_counts outcome (x :: xs.take (conc - 1)) cnt
      set batch := x :: xs.take (conc - 1) with hbatch
      set cnt2 := stepBatch outcome cnt batch with hcnt2
      have ihr := ih (xs.drop (conc - 1)) hrest cnt2
      have hunfold : crawlCheckpointsAux outcome conc (fuel + 1) cnt (x :: xs)
          = cnt2 :: crawlCheckpointsAux outcome conc fuel cnt2 (xs.drop (conc - 1)) := rfl
      have hlen : batch.length + (xs.drop (conc - 1)).length = (x :: xs).length := by
        have := congrArg List.length hsplit
        simpa using this
      have hfilt : (batch.filter outcome).length
          + ((xs.drop (conc - 1)).filter outcome).length
          = ((x :: xs).filter outcome).length := by
        have := congrArg (fun t => (List.filter outcome t).length) hsplit
        simpa [List.filter_append] using this
      have hfiltn : (batch.filter (fun x => !outcome x)).length
          + ((xs.drop (conc - 1)).filter (fun x => !outcome x)).length
          = ((x :: xs).filter (fun x => !outcome x)).length := by
        have := congrArg (fun t => (List.filter (fun x => !outcome x) t).length) hsplit
        simpa [List.filter_append] using this
      rw [hunfold]
      refine ⟨?_, ?_, ?_, ?_⟩
      · rw [List.getLastD_cons, ihr.1, hb.1]
        omega
      · rw [List.getLastD_cons, ihr.2.1, hb.2.1]
        omega
      · rw [List.getLastD_cons, ihr.2.2.1, hb.2.2]
        omega
      · intro hinv cp hcp
        have hbsplit := length_filter_add_length_filter_not outcome batch
        have hinv2 : cnt2.successful + cnt2.failed = cnt2.completed := by
          have h1 := hb.1
          have h2 := hb.2.1
          have h3 := hb.2.2
          omega
        rcases List.mem_cons.mp hcp with rfl | hcp2
        · exact hinv2
        · exact ihr.2.2.2 hinv2 cp hcp2

/-- C7: Batch accounting.  Starting from zeroed counters, the run over `N`
target colleges at any concurrency satisfies: the final persisted
`attempted` counter equals `N` (and `successful`/`failed` count exactly
the succeeding/failing colleges, for every outcome function — a
per-college failure is recorded and processing continues, so no failure
aborts a batch or the run), and every intermediate checkpoint persisted
after a batch satisfies `successful + failed = attempted`. -/
theorem batch_accounting (outcome : α → Bool) (conc : Nat) (colleges : List α) :
    ((crawlCheckpoints outcome conc ⟨0, 0, 0⟩ colleges).getLastD ⟨0, 0, 0⟩).completed
        = colleges.length ∧
    ((crawlCheckpoints outcome conc ⟨0, 0, 0⟩ colleges).getLastD ⟨0, 0, 0⟩).successful
        = (colleges.filter outcome).length ∧
    ((crawlCheckpoints outcome conc ⟨0, 0, 0⟩ colleges).getLastD ⟨0, 0, 0⟩).failed
        = (colleges.filter (fun x => !outcome x)).length ∧
    (∀ cp ∈ crawlCheckpoints outcome conc ⟨0, 0, 0⟩ colleges,
        cp.successful + cp.failed = cp.completed) := by
  have h := crawlCheckpointsAux_spec outcome conc colleges.length colleges
    (Nat.le_refl _) ⟨0, 0, 0⟩
  unfold crawlCheckpoints
  exact ⟨by simpa using h.1, by simpa using h.2.1, by simpa using h.2.2.1, h.2.2.2 rfl⟩

/-- Witness for C7: with concurrency 2 over three colleges of which only
the second succeeds, the first persisted checkpoint ⟨2, 1, 1⟩ satisfies
the accounting invariant. -/
theorem batch_accounting_witness :
    (⟨2, 1, 1⟩ : Counters).successful + (⟨2, 1, 1⟩ : Counters).failed
      = (⟨2, 1, 1⟩ : Counters).completed :=
  (batch_accounting (fun n : Nat => n % 2 = 0) 2 [1, 2, 3]).2.2.2
    ⟨2, 1, 1⟩ (by decide)

/-- Helper: removing every pair with key `k` and appending `(k, v)` makes
`k` read back as `v`. -/
theorem lookupDetail_setDetail (k v : String) (ds : List (String × String)) :
    lookupDetail (setDetail ds k v) k = some v := by
  simp [setDetail, lookupDetail]

/-- C8: Stale-run cleanup.  Every `crawl_logs` row that still has no
`run_finished_at` and whose `run_started_at` lies more than 30 minutes
before `now` is finalized by `cleanupStaleCrawlLogs`: the cleaned table
contains a row with the same id whose finish time is set to `now` and
whose details carry the stale-crawl error annotation; after the cleanup no
stale unfinished row remains; and `initialize` hands the startup
run phase exactly the cleaned state, so the cleanup happens before any
new run can start. -/
theorem stale_run_cleanup (now : Int) (logs : List CrawlLogRec) (r : CrawlLogRec)
    (hmem : r ∈ logs) (hopen : r.run_finished_at = none)
    (hold : r.run_started_at < now - 30) :
    (∃ r2 ∈ cleanupStaleCrawlLogs now logs,
        r2.id = r.id ∧ r2.run_started_at = r.run_started_at ∧
        r2.run_finished_at = some now ∧
        lookupDetail r2.details "error" = some staleErrorMsg) ∧
    (∀ r2 ∈ cleanupStaleCrawlLogs now logs,
        r2.run_finished_at = none → ¬(r2.run_started_at < now - 30)) ∧
    (∀ (runPhase : CrawlerWorld → CrawlerWorld) (w : CrawlerWorld),
        initializeModel runPhase now w
          = runPhase { w with crawlLogs := cleanupStaleCrawlLogs now w.crawlLogs }) := by
  refine ⟨?_, ?_, fun _ _ => rfl⟩
  · have hstale : isStaleLog now r = true := by
      simp [isStaleLog, hopen, hold]
    have himg : staleMark now r ∈ cleanupStaleCrawlLogs now logs := by
      unfold cleanupStaleCrawlLogs
      have h2 := List.mem_map_of_mem
        (fun q => if isStaleLog now q then staleMark now q else q) hmem
      simpa [hstale] using h2
    exact ⟨staleMark now r, himg, rfl, rfl, rfl,
      lookupDetail_setDetail "error" staleErrorMsg r.details⟩
  · intro r2 hr2 hfin
    unfold cleanupStaleCrawlLogs at hr2
    obtain ⟨q, -, rfl⟩ := List.mem_map.mp hr2
    by_cases hq : isStaleLog now q = true
    · rw [if_pos hq] at hfin
      simp [staleMark] at hfin
    · rw [if_neg hq] at hfin ⊢
      simp only [isStaleLog, Bool.and_eq_true, decide_eq_true_eq] at hq
      exact fun hlt => hq ⟨hfin, hlt⟩

/-- The stale log of the C8 witness: started at minute 0, never finished,
observed at minute 31. -/
def staleWitnessLog : CrawlLogRec :=
  { id := 1, run_started_at := 0, run_finished_at := none,
    colleges_attempted := 0, colleges_successful := 0, colleges_failed := 0,
    details := [] }

/-- Witness for C8 at a concrete stale log. -/
theorem stale_run_cleanup_witness :
    ∃ r2 ∈ cleanupStaleCrawlLogs 31 [staleWitnessLog],
      r2.id = staleWitnessLog.id ∧
      r2.run_started_at = staleWitnessLog.run_started_at ∧
      r2.run_finished_at = some 31 ∧
      lookupDetail r2.details "error" = some staleErrorMsg :=
  (stale_run_cleanup 31 [staleWitnessLog] staleWitnessLog (by decide) rfl
    (by decide)).1

/-- C6 counterexample: a 201 Created response (a 2xx status) at zero
redirect hops is rejected with an HTTP-status error instead of resolving
with the body — `fetchPage` resolves only status 200, so "for every 2xx
response … it resolves with the page body" is false as stated. -/
theorem fetchPage_2xx_counterexample :
    ((200 : Nat) ≤ 201 ∧ (201 : Nat) < 300) ∧
    fetchPage (fun _ => { status := 201, location := none, body := "created" })
        "https://example.test" 0
      = Except.error (FetchError.httpStatus 201) := by
  refine ⟨by omega, ?_⟩
  rw [fetchPage]
  norm_num

/-- C6 (amended): `fetchPage` resolves, with the final page body, exactly
when following 3xx-with-Location redirects within the 5-hop budget ends at
a response with status exactly 200 (`ReachesOk`); in every other case —
any final status other than 200, 2xx included, a 3xx response without a
Location header, or a sixth redirect hop — it fails with an error. -/
theorem fetchPage_ok_iff (env : FetchEnv) :
    ∀ (redirectCount : Nat) (url : String) (b : String),
      fetchPage env url redirectCount = Except.ok b ↔
        ReachesOk env url redirectCount b := by
  have main : ∀ (fuel rc : Nat), 6 - rc ≤ fuel → ∀ (url : String) (b : String),
      (fetchPage env url rc = Except.ok b ↔ ReachesOk env url rc b) := by
    intro fuel
    induction fuel with
    | zero =>
      intro rc hrc url b
      have h6 : rc > 5 := by omega
      rw [fetchPage]
      simp only [h6, dite_true, dif_pos]
      constructor
      · intro h
        exact absurd h (by simp)
      · intro hreach
        cases hreach <;> omega
    | succ fuel ih =>
      intro rc hrc url b
      by_cases h6 : rc > 5
      · rw [fetchPage]
        simp only [h6, dif_pos]
        constructor
        · intro h
          exact absurd h (by simp)
        · intro hreach
          cases hreach <;> omega
      · rw [fetchPage, dif_neg h6]
        by_cases hredir : 300 ≤ (env url).status ∧ (env url).status < 400
        · rw [if_pos hredir]
          cases hloc : (env url).location with
          | some loc =>
            show fetchPage env loc (rc + 1) = Except.ok b ↔ ReachesOk env url rc b
            rw [ih (rc + 1) (by omega) loc b]
            constructor
            · intro hr
              exact ReachesOk.redirect url rc loc b (by omega) hredir.1 hredir.2 hloc hr
            · intro hr
              cases hr with
              | here _ _ hle hnot h200 =>
                exact absurd ⟨hredir.1, hredir.2, by simp [hloc]⟩ hnot
              | redirect _ _ loc2 _ hle h3 h4 hloc2 hrest =>
                rw [hloc] at hloc2
                injection hloc2 with he
                subst he
                exact hrest
          | none =>
            have hne200 : (env url).status ≠ 200 := by omega
            show (if (env url).status ≠ 200 then
                    Except.error (FetchError.httpStatus (env url).status)
                  else Except.ok (env url).body) = Except.ok b ↔ ReachesOk env url rc b
            rw [if_pos hne200]
            constructor
            · intro h
              exact absurd h (by simp)
            · intro hreach
              cases hreach with
              | here _ _ hle hnot h200 => exact absurd h200 hne200
              | redirect _ _ loc2 _ hle h3 h4 hloc2 hrest =>
                rw [hloc] at hloc2
                exact Option.noConfusion hloc2
        · rw [if_neg hredir]
          by_cases h200 : (env url).status = 200
          · rw [if_neg (not_not_intro h200)]
            constructor
            · intro h
              injection h with he
              subst he
              exact ReachesOk.here url rc (by omega) (fun hc => hredir ⟨hc.1, hc.2.1⟩) h200
            · intro hreach
              cases hreach with
              | here _ _ hle hnot hs => rfl
              | redirect _ _ loc2 _ hle h3 h4 hloc2 hrest => exact absurd ⟨h3, h4⟩ hredir
          · rw [if_pos h200]
            constructor
            · intro h
              exact absurd h (by simp)
            · intro hreach
              cases hreach with
              | here _ _ hle hnot hs => exact absurd hs h200
              | redirect _ _ loc2 _ hle h3 h4 hloc2 hrest => exact absurd ⟨h3, h4⟩ hredir
  intro rc url b
  exact main (6 - rc) rc (Nat.le_refl _) url b

/-- The C6 witness network: every URL answers 200 with body "hello". -/
def okFetchEnv : FetchEnv := fun _ => { status := 200, location := none, body := "hello" }

/-- Witness for C6 (amended): on the all-200 network the success condition
holds, via the contract applied to a concrete fetch. -/
theorem fetchPage_ok_iff_witness :
    ReachesOk okFetchEnv "https://example.test" 0 "hello" :=
  (fetchPage_ok_iff okFetchEnv 0 "https://example.test" "hello").mp (by
    rw [fetchPage]
    norm_num [okFetchEnv])

end Commonapp
